import Mathlib

/-!
# Formal model of the dotmanager core

Shallow embedding of the dotfile-tracking CLI (`src/main.rs`, `src/util.rs`):
the tracking-list store, the porcelain status parser, the diff extractor, the
index arithmetic and key loop of the interactive navigator, and the top-level
`diff` dispatcher.  Rust strings are modelled as Lean `String`s (character
lists); Rust byte-indexed operations are modelled on characters, which
agrees with the source on the ASCII data in scope.  Filesystem reads and
subprocess outputs are passed in as explicit arguments; `exit` calls and
file writes are reflected in result values.
-/

namespace Dotmanager

/-! ## String primitives modelled from Rust

All splitting/containment helpers are written with structural recursion so
that they evaluate inside the kernel on concrete inputs. -/

/-- Substring occurrence on character lists: `charsContain pat hay` is true
iff `pat` occurs contiguously inside `hay`.  Models Rust `str::contains`. -/
def charsContain (pat : List Char) : List Char → Bool
  | [] => pat.isEmpty
  | c :: rest => pat.isPrefixOf (c :: rest) || charsContain pat rest

/-- Rust `hay.contains(pat)`: substring containment on strings. -/
def strContains (hay pat : String) : Bool :=
  charsContain pat.data hay.data

/-- Splitter on a non-empty separator, first-match, non-overlapping — the
semantics of Rust `str::split`.  `cur` accumulates the current piece in
reverse; the fuel argument is consumed once per examined character, so the
input length is always enough fuel. -/
def splitSepAux (sep : List Char) : Nat → List Char → List Char → List (List Char)
  | 0, cur, _ => [cur.reverse]
  | _, cur, [] => [cur.reverse]
  | fuel + 1, cur, c :: rest =>
    if sep.isPrefixOf (c :: rest) then
      cur.reverse :: splitSepAux sep fuel [] ((c :: rest).drop sep.length)
    else
      splitSepAux sep fuel (c :: cur) rest

/-- Rust `s.split(sep)` for a non-empty separator string: splitting the
empty string yields `[""]`, and a trailing separator yields a trailing
empty piece, as in Rust. -/
def splitSep (sep s : String) : List String :=
  (splitSepAux sep.data s.data.length [] s.data).map fun l => ⟨l⟩

/-- Rust `str::trim`: strip leading and trailing whitespace. -/
def strTrim (s : String) : String :=
  ⟨((s.data.dropWhile Char.isWhitespace).reverse.dropWhile Char.isWhitespace).reverse⟩

/-- One-sided repeated strip, the loop of Rust `s.trim_start_matches(pat)`:
while the (non-empty) pattern is a leading run of `s`, drop it.  Each strip
removes at least one character, so `s.length` bounds the number of strips
and serves as structural fuel. -/
def stripMatchesAux (pat : List Char) : Nat → List Char → List Char
  | 0, s => s
  | fuel + 1, s =>
    if !pat.isEmpty && pat.isPrefixOf s then
      stripMatchesAux pat fuel (s.drop pat.length)
    else s

/-- Rust `s.trim_start_matches(pat)`: repeatedly removes `pat` from the
front of `s`. -/
def stripMatches (pat s : String) : String :=
  ⟨stripMatchesAux pat.data s.data.length s.data⟩

/-! ## Path List Store (`util.rs` `file_to_vec`, `main.rs` tracking-list ops) -/

/-- Model of `file_to_vec` (`util.rs` 186–190): read the record file, trim
surrounding whitespace, split on newlines.  The content of the file is the
argument.  Note that an empty content trims to `""` and splits to `[""]`. -/
def file_to_vec (content : String) : List String :=
  splitSep "\n" (strTrim content)

/-- Error exits of `add_to_tracking_list` (`main.rs` 405–424): both arms
print a warning naming a path and call `exit(2)` before any write. -/
inductive AddError where
  | alreadyTracked (path : String)
  | conflict (ancestor : String)
deriving DecidableEq, Repr

/-- The scan loop of `add_to_tracking_list`: for each existing entry `p` in
order, an entry equal to `path` exits with `alreadyTracked`, and an entry
occurring inside `path` (Rust `path.contains(p)`) exits with `conflict p`. -/
def checkConflicts (path : String) : List String → Option AddError
  | [] => none
  | p :: ps =>
    if path = p then some (.alreadyTracked path)
    else if strContains path p then some (.conflict p)
    else checkConflicts path ps

/-- Model of `add_to_tracking_list` (`main.rs` 405–424).  After the scan
loop passes, entries containing `path` are pruned (`retain(|p|
!p.contains(path))`), `path` is appended, and the resulting list is the one
written back to the record; on error the process exits before writing. -/
def add_to_tracking_list (paths : List String) (path : String) :
    Except AddError (List String) :=
  match checkConflicts path paths with
  | some e => .error e
  | none => .ok ((paths.filter fun p => !strContains p path) ++ [path])

/-- Model of `remove_from_tracking_list` (`main.rs` 426–439): retain the
entries different from `path`; if nothing was dropped, print an error and
`exit(2)` without writing.  Result: the persisted list (unchanged input on
the error path) paired with whether the error path was taken. -/
def remove_from_tracking_list (paths : List String) (path : String) :
    List String × Bool :=
  let kept := paths.filter fun p => p != path
  if kept.length = paths.length then (paths, true) else (kept, false)

/-- The reconcile pass at the head of `git_add_all` (`main.rs` 176–186):
entries whose `fs::metadata` check fails are dropped, and the record file is
rewritten only when the length changed.  `present` abstracts
`metadata(p).is_ok()`.  Result: the kept entries paired with whether the
record was rewritten. -/
def git_add_all_reconcile (present : String → Bool) (paths : List String) :
    List String × Bool :=
  let kept := paths.filter present
  (kept, !(kept.length == paths.length))

/-! ## Status Parser (`main.rs` `get_status_table`, `get_status_counts`) -/

/-- One parsed change record, as pushed onto `status_info.status_entries`
(`main.rs` 463–465).  The cosmetic colour codes around the path are omitted
(spec §2: colour/style is outside the contract). -/
structure StatusEntry where
  kind : String
  path : String
deriving DecidableEq, Repr

/-- The parallel arrays `matches` and `titles` of `get_status_table`
(`main.rs` 448–449), in source order: Added, Deleted, Modified. -/
def statusKinds : List (String × String) :=
  [("A", "new file"), ("D", "deleted"), ("M", "modified")]

/-- Rust `&line[0..2]`: the two-character status code at the head of a
porcelain line (bytes in the source; characters here — identical on the
ASCII codes in scope). -/
def firstTwo (line : String) : String :=
  ⟨line.data.take 2⟩

/-- Rust split-on-space, last element: the token after the last
space of the line (`main.rs` 456–461). -/
def lastToken (line : String) : String :=
  (splitSep " " line).getLastD ""

/-- The inner loop of `get_status_table` (`main.rs` 452–470) for one line:
for each kind in the fixed order whose code letter occurs in the
first two characters of the line, one `StatusEntry` (and one table row) is produced.
The loop does not stop after a match. -/
def lineEntries (line : String) : List StatusEntry :=
  statusKinds.filterMap fun mt =>
    if strContains (firstTwo line) mt.1 then some ⟨mt.2, lastToken line⟩
    else none

/-- The entry sequence produced by one `get_status_table` pass over all
status lines; table rows are added in lockstep with these entries. -/
def get_status_entries (lines : List String) : List StatusEntry :=
  lines.flatMap lineEntries

/-- Model of `get_status_counts` (`main.rs` 553–560): for each code letter
in order A, D, M, the number of lines whose first two characters contain
it.  The source accumulates the counts as `i32`; the values are list
lengths, hence naturals. -/
def get_status_counts (lines : List String) : List Nat :=
  ["A", "D", "M"].map fun m =>
    (lines.filter fun l => strContains (firstTwo l) m).length

/-! ## Diff Extractor (`main.rs` `diff_file`) -/

/-- Rust `cached_diff.split("diff --git ")` (`main.rs` 262): the 0th piece
is the preamble before the first marker. -/
def diffSegments (cachedDiff : String) : List String :=
  splitSep "diff --git " cachedDiff

/-- The `enumerate().find(...)` lookup of `diff_file` (`main.rs` 266–269):
index of the first changed-file name equal to the target. -/
def findFileIndex (diffPaths : List String) (file : String) : Option Nat :=
  diffPaths.findIdx? fun p => file == p

/-- Observable outcome of `diff_file` (`main.rs` 260–313): either the
selected segment is colorized and piped to the pager (`pager`, carrying the
raw segment handed to the rendering loop), or the target is absent from the
changed-file names, a warning is printed and the process exits with the
given code (`exit(0)` at line 274) without spawning the pager. -/
inductive DiffOutcome where
  | pager (segment : String)
  | warnExit (code : Nat)
deriving DecidableEq, Repr

/-- Model of `diff_file` (`main.rs` 260–276): split the cached diff on the
boundary marker, split the name-only output on newlines, strip the
`HOME ++ "/"` run from the target, and look the stripped target up among
the names; on a hit at index `i` the segment `cached_diff[i + 1]` goes to
the pager (the source panics when `i + 1` is out of bounds; the model
returns `""` there), on a miss the process exits 0.  The git outputs and
the home directory are explicit arguments. -/
def diff_file (home cachedDiff namesRaw file : String) : DiffOutcome :=
  match findFileIndex (splitSep "\n" namesRaw) (stripMatches (home ++ "/") file) with
  | some i => .pager ((diffSegments cachedDiff).getD (i + 1) "")
  | none => .warnExit 0

/-- The user-facing error exits of the tool and the code passed to `exit`
at each site: invalid arguments (`handle_input`, `main.rs` 38–47, exit 2);
a filesystem path that does not exist (`check_path_exists`, 253–258,
exit 2); an already-tracked path and a tracking-list ancestor conflict
(`add_to_tracking_list`, 405–424, exit 2 in both arms); removal without an
exact match (`remove_from_tracking_list`, 426–439, exit 2); and a diff
target absent from the changed-file list (`diff_file`, 266–276, exit 0). -/
def errorExitCodes : List (String × Nat) :=
  [("invalid-args", 2), ("path-not-found", 2), ("already-tracked", 2),
   ("tracking-conflict", 2), ("remove-not-found", 2), ("diff-not-found", 0)]

/-! ## Interactive Navigator (`main.rs` `diff_file_select`, `next_status_entry`) -/

/-- Index arithmetic of `next_status_entry` (`main.rs` 352–360): Rust `%`
on `i32` is the truncated remainder (`Int.tmod`); a negative result is
shifted up by the entry count. -/
def next_index (l index dir : Int) : Int :=
  let i := Int.tmod (index + dir) l
  if i < 0 then i + l else i

/-- Key events distinguished by the match in `diff_file_select`
(`main.rs` 331–346); `other` stands for every non-navigation key. -/
inductive NavKey where
  | tab
  | backTab
  | arrowDown
  | arrowUp
  | enter
  | other
deriving DecidableEq, Repr

/-- Terminal mode flags toggled by the navigator: `rawMode` is set by
`enable_raw_mode` / cleared by `disable_raw_mode`, and `cursorHidden` by
`cursor::Hide` / `cursor::Show`. -/
structure TermState where
  rawMode : Bool
  cursorHidden : Bool
deriving DecidableEq, Repr

/-- How control leaves the key loop of the navigator: cancellation by a
non-navigation key (`break` after restoring the terminal), process
termination via an `exit` reached inside the loop, or the modelled key
supply running out with the loop still live. -/
inductive NavEnd where
  | cancelled
  | processExit (code : Nat)
  | keysExhausted
deriving DecidableEq, Repr

/-- The key-read loop of `diff_file_select` (`main.rs` 329–349), entered
with raw mode enabled and the cursor hidden.  `entries` holds the path
handed to `diff_file` for each selectable row (the source slices it out of
the stored formatted cell); the git outputs consulted by `diff_file` are
fixed for the duration of the loop.  Tab/Down and BackTab/Up move the
selection via `next_status_entry`; Enter runs `diff_file`, which either
returns after the pager exits (loop continues, same index) or exits the
process with the terminal state as it stands; any other key restores
cooked mode and the cursor and breaks. -/
def navLoop (home cachedDiff namesRaw : String) (entries : List String) :
    List NavKey → Int → TermState → TermState × NavEnd
  | [], _, t => (t, .keysExhausted)
  | k :: ks, index, t =>
    match k with
    | .tab | .arrowDown =>
        navLoop home cachedDiff namesRaw entries ks
          (next_index (entries.length : Int) index 1) t
    | .backTab | .arrowUp =>
        navLoop home cachedDiff namesRaw entries ks
          (next_index (entries.length : Int) index (-1)) t
    | .enter =>
        match diff_file home cachedDiff namesRaw (entries.getD index.toNat "") with
        | .pager _ => navLoop home cachedDiff namesRaw entries ks index t
        | .warnExit c => (t, .processExit c)
    | .other => ({ rawMode := false, cursorHidden := false }, .cancelled)

/-! ## Top-level diff dispatcher (`main.rs` `diff`) -/

/-- Terminal outcomes of the `diff` dispatcher within a given call-depth
budget.  `extractorReached` is expressible so that its absence can be
stated; the dispatcher never produces it. -/
inductive DiffEnd where
  | outOfFuel
  | selectLoop
  | extractorReached (file : String)
deriving DecidableEq, Repr

/-- Model of the top-level `diff` (`main.rs` 132–141).  Every invocation
first runs the `git_add_all` staging pass; an empty argument proceeds to
the interactive selection path, and a non-empty argument re-invokes `diff`
itself with the same argument (the call on line 139 is `diff(file)`, not
`diff_file(file)`).  `fuel` bounds the recursion depth; the second
component counts the staging passes that ran. -/
def diffRun : Nat → String → DiffEnd × Nat
  | 0, _ => (.outOfFuel, 0)
  | fuel + 1, file =>
    if file = "" then (.selectLoop, 1)
    else
      let r := diffRun fuel file
      (r.1, r.2 + 1)

/-! ## Helper lemmas -/

/-- The empty pattern occurs in every string, as the Rust contains method given an empty pattern. -/
lemma strContains_empty (s : String) : strContains s "" = true := by
  unfold strContains
  cases s.data <;> simp [charsContain]

/-- Every string occurs in itself. -/
lemma strContains_self (s : String) : strContains s s = true := by
  unfold strContains
  cases h : s.data with
  | nil => simp [charsContain]
  | cons c rest => simp [charsContain]

/-- The scan loop of `add_to_tracking_list` passes exactly when no existing
entry occurs inside the candidate (equality being the special case of an
entry occurring inside itself). -/
lemma checkConflicts_eq_none_iff (c : String) (P : List String) :
    checkConflicts c P = none ↔ ∀ p ∈ P, strContains c p = false := by
  induction P with
  | nil => simp [checkConflicts]
  | cons p ps ih =>
    simp only [checkConflicts]
    by_cases h1 : c = p
    · subst h1
      simp [strContains_self]
    · rw [if_neg h1]
      by_cases h2 : strContains c p = true
      · simp [h2]
      · simp only [Bool.not_eq_true] at h2
        simp [h2, ih]

/-! ## C1: add on the tracking list -/

/-- C1 counterexample: with the store holding "/a/b" and candidate "/a",
the candidate is a strict ancestor of the tracked entry ("/a" occurs in
"/a/b" and differs from it), yet `add_to_tracking_list` succeeds, absorbing
the descendant — refuting the claim that add(c) succeeds only if c is not
an ancestor of any tracked path. -/
theorem C1_add_counterexample :
    strContains "/a/b" "/a" = true ∧ ("/a" : String) ≠ "/a/b" ∧
    add_to_tracking_list ["/a/b"] "/a" = .ok ["/a"] :=
  ⟨by decide, by decide, rfl⟩

/-- C1 (amended): `add_to_tracking_list` succeeds iff no existing entry
occurs inside the candidate — in particular iff the candidate is neither
equal to nor a descendant of any entry; the candidate being an ancestor of
entries does not cause failure.  On success, exactly the entries that
contain the candidate are removed and the candidate is appended, the
surviving entries keeping their order. -/
theorem C1_add_iff_and_prune (P : List String) (c : String) :
    ((∃ L, add_to_tracking_list P c = .ok L) ↔
      ∀ p ∈ P, strContains c p = false) ∧
    ∀ L, add_to_tracking_list P c = .ok L →
      L = (P.filter fun p => !strContains p c) ++ [c] := by
  constructor
  · constructor
    · rintro ⟨L, hL⟩
      rw [← checkConflicts_eq_none_iff]
      unfold add_to_tracking_list at hL
      cases h : checkConflicts c P with
      | none => rfl
      | some e => rw [h] at hL; exact absurd hL (by simp)
    · intro h
      rw [← checkConflicts_eq_none_iff] at h
      refine ⟨(P.filter fun p => !strContains p c) ++ [c], ?_⟩
      unfold add_to_tracking_list
      rw [h]
  · intro L hL
    unfold add_to_tracking_list at hL
    cases h : checkConflicts c P with
    | none =>
      rw [h] at hL
      exact (Except.ok.inj hL).symm
    | some e => rw [h] at hL; exact absurd hL (by simp)

/-- C1 witness: adding "/h/y" next to the unrelated entry "/h/x" succeeds
and appends it. -/
theorem C1_add_witness :
    (["/h/x", "/h/y"] : List String) =
      ((["/h/x"] : List String).filter fun p => !strContains p "/h/y") ++ ["/h/y"] :=
  (C1_add_iff_and_prune ["/h/x"] "/h/y").2 ["/h/x", "/h/y"] rfl

/-! ## C2: remove on the tracking list -/

/-- C2: `remove_from_tracking_list` takes the success path exactly when the
path is an exact member of the list; on the error path the persisted list
is the unchanged input, and on success exactly the exact matches are
removed. -/
theorem C2_remove_exact_only (L : List String) (c : String) :
    ((remove_from_tracking_list L c).2 = false ↔ c ∈ L) ∧
    ((remove_from_tracking_list L c).2 = true →
      (remove_from_tracking_list L c).1 = L) ∧
    ((remove_from_tracking_list L c).2 = false →
      (remove_from_tracking_list L c).1 = L.filter fun p => p != c) := by
  unfold remove_from_tracking_list
  by_cases h : (L.filter fun p => p != c).length = L.length
  · rw [if_pos h]
    have hmem : c ∉ L := by
      rw [List.filter_length_eq_length] at h
      intro hc
      have := h c hc
      simp at this
    simp [hmem]
  · rw [if_neg h]
    have hmem : c ∈ L := by
      by_contra hc
      apply h
      rw [List.filter_length_eq_length]
      intro a ha
      have : a ≠ c := fun heq => hc (heq ▸ ha)
      simp [this]
    simp [hmem]

/-- C2 witness: removing the member "a" succeeds; removing the non-member
"z" takes the error path and leaves the list unchanged. -/
theorem C2_remove_witness :
    (remove_from_tracking_list ["a", "b"] "a").2 = false ∧
    (remove_from_tracking_list ["a", "b"] "z").1 = ["a", "b"] :=
  ⟨(C2_remove_exact_only ["a", "b"] "a").1.mpr (by decide),
   (C2_remove_exact_only ["a", "b"] "z").2.1 (by decide)⟩

/-! ## C8: the reconcile pass of `git_add_all` -/

/-- C8: the reconcile pass keeps exactly the entries whose filesystem
target still exists, and rewrites the record iff at least one entry was
dropped — in particular, when every tracked path exists the record is not
written. -/
theorem C8_reconcile_frame (present : String → Bool) (paths : List String) :
    (git_add_all_reconcile present paths).1 = paths.filter present ∧
    ((git_add_all_reconcile present paths).2 = true ↔
      ∃ p ∈ paths, present p = false) := by
  unfold git_add_all_reconcile
  refine ⟨rfl, ?_⟩
  constructor
  · intro h
    by_contra hall
    push_neg at hall
    have : ∀ p ∈ paths, present p = true := by
      intro p hp
      cases hpp : present p with
      | false => exact absurd hpp (hall p hp)
      | true => rfl
    have hlen : (paths.filter present).length = paths.length :=
      List.filter_length_eq_length.mpr this
    simp [hlen] at h
  · rintro ⟨p, hp, hfalse⟩
    have hlen : (paths.filter present).length ≠ paths.length := by
      intro hlen
      have := List.filter_length_eq_length.mp hlen p hp
      rw [hfalse] at this
      exact Bool.false_ne_true this
    simpa using hlen

/-- C8 witness: with "x" present and "gone" absent, the pass keeps exactly
"x" and rewrites the record; with every entry present it does not. -/
theorem C8_reconcile_witness :
    (git_add_all_reconcile (fun p => p == "x") ["x", "gone"]).1 = ["x"] ∧
    (git_add_all_reconcile (fun p => p == "x") ["x", "gone"]).2 = true ∧
    (git_add_all_reconcile (fun _ => true) ["x", "gone"]).2 = false :=
  ⟨by decide,
   (C8_reconcile_frame (fun p => p == "x") ["x", "gone"]).2.mpr
     ⟨"gone", by decide, by decide⟩,
   by decide⟩

/-! ## C10: load of an empty record, then add -/

/-- C10 counterexample: on the empty record the loaded list is `[""]`, and
the candidate `""` makes `add_to_tracking_list` fail with the
already-tracked error, not the ancestor-conflict error the claim predicts
for every candidate. -/
theorem C10_empty_counterexample :
    add_to_tracking_list (file_to_vec "") "" = .error (.alreadyTracked "") ∧
    add_to_tracking_list (file_to_vec "") "" ≠ .error (.conflict "") := by
  refine ⟨rfl, fun h => ?_⟩
  have h1 : Except.error (α := List String) (AddError.alreadyTracked "") =
      .error (.conflict "") :=
    (rfl :
      add_to_tracking_list (file_to_vec "") "" = .error (.alreadyTracked "")).symm.trans h
  simp at h1

/-- C10 (amended): loading an empty record yields the one-element list
`[""]`, and for every non-empty candidate `c`, add fails with the
ancestor-conflict error naming `""` (every string contains the empty
string), the process exiting before any write; the candidate `""` itself
instead hits the equality check first and fails as already tracked. -/
theorem C10_empty_record_conflict (c : String) (h : c ≠ "") :
    file_to_vec "" = [""] ∧
    add_to_tracking_list (file_to_vec "") c = .error (.conflict "") := by
  refine ⟨rfl, ?_⟩
  have h0 : file_to_vec "" = [""] := rfl
  have h1 : checkConflicts c [""] = some (.conflict "") := by
    unfold checkConflicts
    rw [if_neg h, if_pos (by rw [strContains_empty])]
  unfold add_to_tracking_list
  rw [h0, h1]

/-- C10 witness: the concrete candidate "/x" on the empty record. -/
theorem C10_empty_record_witness :
    add_to_tracking_list (file_to_vec "") "/x" = .error (.conflict "") :=
  (C10_empty_record_conflict "/x" (by decide)).2

/-! ## C3: status lines matching several kinds -/

/-- Entry count contributed by one line: one per kind letter occurring in
its two-character code. -/
lemma lineEntries_length (line : String) :
    (lineEntries line).length =
      ((if strContains (firstTwo line) "A" then 1 else 0) +
       ((if strContains (firstTwo line) "D" then 1 else 0) +
        (if strContains (firstTwo line) "M" then 1 else 0)) : Nat) := by
  unfold lineEntries statusKinds
  cases hA : strContains (firstTwo line) "A" <;>
    cases hD : strContains (firstTwo line) "D" <;>
      cases hM : strContains (firstTwo line) "M" <;>
        simp [hA, hD, hM]

/-- C3 counterexample: the porcelain line "AD x" matches both the Added and
the Deleted code letter; the table loop does not stop after the first
match, so this single input line contributes two StatusEntries (and two
table rows), refuting "at most one StatusEntry and at most one table row". -/
theorem C3_two_entries_counterexample :
    get_status_entries ["AD x"] =
      [⟨"new file", "x"⟩, ⟨"deleted", "x"⟩] ∧
    ¬ (get_status_entries ["AD x"]).length ≤ 1 :=
  ⟨rfl, by decide⟩

/-- C3 (amended): a line contributes one StatusEntry (and one table row)
per matching kind, in the fixed order Added, Deleted, Modified — possibly
more than one when the code matches several kinds — and the total number of
entries equals the sum of the three kind counts of `get_status_counts`. -/
theorem C3_entries_per_matching_kind (lines : List String) :
    (∀ line, (lineEntries line).length =
      (statusKinds.filter fun mt => strContains (firstTwo line) mt.1).length) ∧
    (get_status_entries lines).length =
      (get_status_counts lines).foldr (· + ·) 0 := by
  constructor
  · intro line
    rw [lineEntries_length]
    unfold statusKinds
    cases hA : strContains (firstTwo line) "A" <;>
      cases hD : strContains (firstTwo line) "D" <;>
        cases hM : strContains (firstTwo line) "M" <;>
          simp [hA, hD, hM, List.filter]
  · induction lines with
    | nil => rfl
    | cons l ls ih =>
      have hc : (get_status_counts (l :: ls)).foldr (· + ·) 0 =
          ((if strContains (firstTwo l) "A" then 1 else 0) +
           ((if strContains (firstTwo l) "D" then 1 else 0) +
            (if strContains (firstTwo l) "M" then 1 else 0))) +
          (get_status_counts ls).foldr (· + ·) 0 := by
        unfold get_status_counts
        cases hA : strContains (firstTwo l) "A" <;>
          cases hD : strContains (firstTwo l) "D" <;>
            cases hM : strContains (firstTwo l) "M" <;>
              simp [hA, hD, hM, List.filter_cons] <;> omega
      unfold get_status_entries at ih ⊢
      rw [List.flatMap_cons, List.length_append, hc, ← ih, lineEntries_length]

/-- C3 witness: the three single-kind example lines of the spec give one
entry each, and counts 1, 1, 1. -/
theorem C3_entries_witness :
    (get_status_entries ["A  file1", "D  file2", "M  file3"]).length =
      (get_status_counts ["A  file1", "D  file2", "M  file3"]).foldr (· + ·) 0 :=
  (C3_entries_per_matching_kind ["A  file1", "D  file2", "M  file3"]).2

/-! ## C4: index-aligned diff segment lookup -/

/-- C4: when the stripped target first occurs at index i of the
changed-file-name sequence and the split diff text has an (i+1)th element,
the segment handed to the pager is exactly that element — the 0th element
(the preamble before the first marker) is never selected. -/
theorem C4_segment_alignment (home cachedDiff namesRaw file : String) (i : Nat)
    (hfind : findFileIndex (splitSep "\n" namesRaw)
      (stripMatches (home ++ "/") file) = some i)
    (hlen : i + 1 < (diffSegments cachedDiff).length) :
    diff_file home cachedDiff namesRaw file =
      .pager ((diffSegments cachedDiff).get ⟨i + 1, hlen⟩) := by
  unfold diff_file
  rw [hfind]
  show DiffOutcome.pager ((diffSegments cachedDiff).getD (i + 1) "") = _
  congr 1
  rw [List.getD_eq_getElem?_getD, List.getElem?_eq_getElem hlen]
  simp [List.get_eq_getElem]

/-- C4 witness: target "/h/b" sits at index 1 of the name list "a\nb", and
the pager receives the 2nd element of the split diff text, "SEGB". -/
theorem C4_segment_witness :
    diff_file "/h" "PREdiff --git SEGAdiff --git SEGB" "a\nb" "/h/b" =
      .pager "SEGB" := by
  have hlen : 1 + 1 < (diffSegments "PREdiff --git SEGAdiff --git SEGB").length := by
    decide
  have h := C4_segment_alignment "/h" "PREdiff --git SEGAdiff --git SEGB" "a\nb"
    "/h/b" 1 (by decide) hlen
  exact h

/-! ## C5: absent diff target is a soft exit -/

/-- C5: when the stripped target is absent from the changed-file-name
sequence, `diff_file` reports a warning and exits with code 0, never
reaching the pager; and among the error exits of the tool this is the only one
whose code is 0 — every other error condition exits 2. -/
theorem C5_absent_diff_soft_exit (home cachedDiff namesRaw file : String)
    (h : stripMatches (home ++ "/") file ∉ splitSep "\n" namesRaw) :
    diff_file home cachedDiff namesRaw file = .warnExit 0 ∧
    (∀ s, diff_file home cachedDiff namesRaw file ≠ .pager s) ∧
    ∀ kv ∈ errorExitCodes, kv.2 = 0 → kv.1 = "diff-not-found" := by
  have hf : findFileIndex (splitSep "\n" namesRaw)
      (stripMatches (home ++ "/") file) = none := by
    unfold findFileIndex
    rw [List.findIdx?_eq_none_iff]
    intro p hp
    exact beq_eq_false_iff_ne.mpr fun heq => h (heq ▸ hp)
  refine ⟨?_, ?_, by decide⟩
  · unfold diff_file
    rw [hf]
  · intro s hs
    unfold diff_file at hs
    rw [hf] at hs
    simp at hs

/-- C5 witness: the target "/h/zz" is absent from the names "a\nb". -/
theorem C5_absent_diff_witness :
    diff_file "/h" "Xdiff --git A" "a\nb" "/h/zz" = .warnExit 0 :=
  (C5_absent_diff_soft_exit "/h" "Xdiff --git A" "a\nb" "/h/zz" (by decide)).1

/-! ## C6: navigator index stepping -/

/-- C6: with n entries and selected index i in range, the Next-key update
is (i + 1) mod n and the Previous-key update is (i - 1) mod n (`%` being
the always-nonnegative mathematical mod, so index 0 wraps to n - 1). -/
theorem C6_navigation_wrap (n i : Int) (hn : 0 < n) (h0 : 0 ≤ i) (hi : i < n) :
    next_index n i 1 = (i + 1) % n ∧
    next_index n i (-1) = (i - 1) % n := by
  constructor
  · unfold next_index
    have h1 : Int.tmod (i + 1) n = (i + 1) % n :=
      Int.tmod_eq_emod (by omega) (by omega)
    rw [h1, if_neg (Int.not_lt.mpr (Int.emod_nonneg _ (by omega)))]
  · unfold next_index
    rcases eq_or_lt_of_le h0 with h0e | h0l
    · rcases eq_or_lt_of_le (by omega : (1 : Int) ≤ n) with h1e | h1l
      · rw [← h0e, ← h1e]
        decide
      · have htd : Int.tmod (i + -1) n = -1 := by
          rw [← h0e]
          have hdiv : Int.tdiv (-1) n = 0 := by
            rw [show (-1 : Int) = -1 from rfl, Int.neg_tdiv,
              Int.tdiv_eq_zero_of_lt (by omega) (by omega)]
            rfl
          rw [show (0 : Int) + -1 = -1 by ring, Int.tmod_def, hdiv]
          ring
        have hrhs : (i - 1) % n = n - 1 := by
          rw [← h0e]
          have h2 : ((0 : Int) - 1 + n * 1) % n = (0 - 1) % n :=
            Int.add_mul_emod_self_left (0 - 1) n 1
          rw [← h2, show (0 : Int) - 1 + n * 1 = n - 1 by ring,
            Int.emod_eq_of_lt (by omega) (by omega)]
        rw [htd, if_pos (by omega), hrhs]
        ring
    · have h1 : Int.tmod (i + -1) n = i - 1 := by
        rw [show i + -1 = i - 1 by ring]
        exact Int.tmod_eq_of_lt (by omega) (by omega)
      rw [h1, if_neg (by omega), Int.emod_eq_of_lt (by omega) (by omega)]

/-- C6 witness: with 3 entries and index 0, a Next-key moves to 1 and a
Previous-key wraps to 2. -/
theorem C6_navigation_witness :
    next_index 3 0 1 = 1 ∧ next_index 3 0 (-1) = 2 := by
  have h := C6_navigation_wrap 3 0 (by decide) (by decide) (by decide)
  exact ⟨h.1.trans (by decide), h.2.trans (by decide)⟩

/-! ## C7: terminal restoration on navigator exit paths -/

/-- C7 evaluation at the failing input: inside the navigator loop (raw mode
on, cursor hidden) with the selected entry "a" absent from the changed-file
names, Enter reaches the `exit(0)` inside `diff_file` and the process
terminates with raw mode still enabled and the cursor still hidden — the
terminal is not restored on this exit path.  The cancellation path, by
contrast, does restore cooked mode and the cursor. -/
theorem C7_enter_exit_unrestored :
    navLoop "/h" "Xdiff --git A" "b" ["a"] [.enter] 0 ⟨true, true⟩ =
      (⟨true, true⟩, .processExit 0) ∧
    navLoop "/h" "Xdiff --git A" "b" ["a"] [.other] 0 ⟨true, true⟩ =
      (⟨false, false⟩, .cancelled) :=
  ⟨rfl, rfl⟩

/-! ## C9: the top-level diff dispatcher on a non-empty argument -/

/-- C9: for every call-depth budget, `diff` on a non-empty file argument
exhausts the whole budget calling itself — one staging pass per iteration —
and the Diff Extractor is never reached on this path. -/
theorem C9_diff_nonterminating (fuel : Nat) (file : String) (h : file ≠ "") :
    diffRun fuel file = (.outOfFuel, fuel) ∧
    ∀ g, (diffRun fuel file).1 ≠ .extractorReached g := by
  have hmain : diffRun fuel file = (.outOfFuel, fuel) := by
    induction fuel with
    | zero => rfl
    | succ n ih =>
      unfold diffRun
      rw [if_neg h, ih]
  exact ⟨hmain, fun g hg => by rw [hmain] at hg; exact absurd hg (by simp)⟩

/-- C9 witness: diff("x") with budget 5 runs 5 staging passes and is still
looping. -/
theorem C9_diff_witness : diffRun 5 "x" = (.outOfFuel, 5) :=
  (C9_diff_nonterminating 5 "x" (by decide)).1

end Dotmanager
